import Mathlib

/-!
Shallow embedding of the datahub-actions pipeline lifecycle supervisor
(`src/datahub_actions/src/datahub_actions/pipeline/pipeline_manager.py`)
and of the event registry's serialization layer
(`src/datahub_actions/src/datahub_actions/event/event_registry.py`).

Python dictionaries are modelled as association lists with unique keys,
kept in insertion order; exceptions are modelled by returning the state
reached so far together with an optional error; the concurrency of the
worker threads is modelled by recording spawn/stop/join/stats effects in
an explicit trace.
-/

/-- A JSON value, the canonical wire format of events.  The textual layer
(`json.dumps`/`json.loads` of the Python standard library) is a bijective
codec on this fragment and is modelled as the identity on `Json` trees. -/
inductive Json where
  | null : Json
  | bool : Bool → Json
  | num : Int → Json
  | str : String → Json
  | arr : List Json → Json
  | obj : List (String × Json) → Json

/-- A JSON object / Python dict body: ordered key-value pairs. -/
abbrev JsonObj := List (String × Json)

/-- Lookup in a Python dict modelled as an association list. -/
def dictLookup {α : Type} : List (String × α) → String → Option α
  | [], _ => none
  | (k, v) :: rest, key => if k = key then some v else dictLookup rest key

/-- Python `key in dict`. -/
def dictContains {α : Type} (d : List (String × α)) (k : String) : Bool :=
  (dictLookup d k).isSome

/-- Python `dict[key] = v`: replaces in place when the key is present,
appends otherwise (insertion order is preserved). -/
def dictInsert {α : Type} : List (String × α) → String → α → List (String × α)
  | [], key, v => [(key, v)]
  | (k, w) :: rest, key, v =>
    if k = key then (k, v) :: rest else (k, w) :: dictInsert rest key v

/-- Python `del dict[key]`: removes the (unique) binding of the key. -/
def dictDelete {α : Type} : List (String × α) → String → List (String × α)
  | [], _ => []
  | (k, w) :: rest, key =>
    if k = key then rest else (k, w) :: dictDelete rest key

/-- Python `list(dict.keys())`. -/
def dictKeys {α : Type} (d : List (String × α)) : List String :=
  d.map Prod.fst

/-- A `Pipeline` collaborator, as consumed by `pipeline_manager.py`.  Only
its name and the outcome of the calls the manager makes on it matter to the
supervisor: whether `run()`, `stop()`, the thread join, or the statistics
reporting (`stats().pretty_print_summary(...)`) raise. -/
structure Pipeline where
  name : String
  runRaises : Bool
  stopRaises : Bool
  joinRaises : Bool
  statsRaises : Bool
deriving DecidableEq

/-- `PipelineSpec` from `pipeline_manager.py`: the caller-supplied name, the
pipeline, and the thread executing it (threads are identified by the `Nat`
allocated when they were spawned). -/
structure PipelineSpec where
  name : String
  pipeline : Pipeline
  thread : Nat
deriving DecidableEq

/-- Observable calls the supervisor makes: spawning a worker thread for a
pipeline, `pipeline.stop()`, `thread.join()` (no timeout argument exists in
the source), and `pipeline.stats().pretty_print_summary(name)`. -/
inductive Effect where
  | spawn (tid : Nat) (pipeline : Pipeline)
  | stopCall (pipeline : Pipeline)
  | joinCall (tid : Nat)
  | statsCall (pipelineName : String)
deriving DecidableEq

/-- The `PipelineManager` state: the `pipeline_registry` dict, a counter
allocating thread identities, and the trace of effects performed so far. -/
structure ManagerState where
  pipeline_registry : List (String × PipelineSpec)
  nextTid : Nat
  trace : List Effect
deriving DecidableEq

/-- The error taxonomy of the supervisor.  The source raises bare
`Exception`s whose messages distinguish exactly these three cases. -/
inductive PipelineError where
  | alreadyRunning (name : String)
  | notFound (name : String)
  | terminationFailed (name : String)
deriving DecidableEq

/-- `PipelineManager.start_pipeline` (pipeline_manager.py lines 49-58):
if `name` is already a key of `pipeline_registry`, raise "already running";
otherwise spawn a thread executing `run_pipeline(pipeline)` and store
`PipelineSpec(name, pipeline, thread)` under the key `pipeline.name` (note:
the membership check uses the argument `name`, the insertion key is the
pipeline's own `name` attribute).  The call returns without waiting for the
worker. -/
def start_pipeline (s : ManagerState) (name : String) (pipeline : Pipeline) :
    ManagerState × Option PipelineError :=
  if dictContains s.pipeline_registry name then
    (s, some (PipelineError.alreadyRunning name))
  else
    let thread := s.nextTid
    let spec : PipelineSpec := ⟨name, pipeline, thread⟩
    ({ pipeline_registry := dictInsert s.pipeline_registry pipeline.name spec,
       nextTid := thread + 1,
       trace := s.trace ++ [Effect.spawn thread pipeline] }, none)

/-- `PipelineManager.terminate_pipeline` (pipeline_manager.py lines 61-84):
if `name` is absent, raise "not found".  Otherwise, inside one `try` block:
`pipeline.stop()`, `thread.join()` (unbounded), then
`pipeline.stats().pretty_print_summary(name)`, then `del` the registry
entry; any exception in that block is caught and re-raised as a
termination failure, leaving the registry untouched. -/
def terminate_pipeline (s : ManagerState) (name : String) :
    ManagerState × Option PipelineError :=
  match dictLookup s.pipeline_registry name with
  | some pipeline_spec =>
    let s1 := { s with trace := s.trace ++ [Effect.stopCall pipeline_spec.pipeline] }
    if pipeline_spec.pipeline.stopRaises then
      (s1, some (PipelineError.terminationFailed name))
    else
      let s2 := { s1 with trace := s1.trace ++ [Effect.joinCall pipeline_spec.thread] }
      if pipeline_spec.pipeline.joinRaises then
        (s2, some (PipelineError.terminationFailed name))
      else
        let s3 := { s2 with trace := s2.trace ++ [Effect.statsCall name] }
        if pipeline_spec.pipeline.statsRaises then
          (s3, some (PipelineError.terminationFailed name))
        else
          ({ s3 with pipeline_registry := dictDelete s3.pipeline_registry name }, none)
  | none => (s, some (PipelineError.notFound name))

/-- Sequential loop body of `terminate_all`: terminate each name in turn,
stopping at (and propagating) the first failure. -/
def terminate_all_go : List String → ManagerState → ManagerState × Option PipelineError
  | [], s => (s, none)
  | n :: rest, s =>
    let r := terminate_pipeline s n
    match r.2 with
    | none => terminate_all_go rest r.1
    | some e => (r.1, some e)

/-- `PipelineManager.terminate_all` (pipeline_manager.py lines 87-93):
snapshot `list(self.pipeline_registry.keys()).copy()` and terminate each
name of the snapshot sequentially. -/
def terminate_all (s : ManagerState) : ManagerState × Option PipelineError :=
  terminate_all_go (dictKeys s.pipeline_registry) s

/-- Calls performed inside a worker thread by `run_pipeline`. -/
inductive WorkerEffect where
  | runCall
  | logError (limit : Nat)
  | stopCall
  | logDebug
deriving DecidableEq

/-- The worker body `run_pipeline` (pipeline_manager.py lines 26-34): call
`pipeline.run()`; on an exception, log the trace with
`traceback.format_exc(limit=3)` and call `pipeline.stop()`.  The function
reads no manager state and writes none, so the registry is passed through
unchanged; the `Bool` records whether the worker thread itself died with an
unhandled exception (`stop()` raising inside the `except` block). -/
def run_pipeline (s : ManagerState) (pipeline : Pipeline) :
    ManagerState × List WorkerEffect × Bool :=
  if pipeline.runRaises then
    if pipeline.stopRaises then
      (s, ([WorkerEffect.runCall, WorkerEffect.logError 3, WorkerEffect.stopCall], true))
    else
      (s, ([WorkerEffect.runCall, WorkerEffect.logError 3, WorkerEffect.stopCall,
            WorkerEffect.logDebug], false))
  else
    (s, ([WorkerEffect.runCall, WorkerEffect.logDebug], false))

/-- Number of worker threads spawned for pipelines named `n`. -/
def workersFor (tr : List Effect) (n : String) : Nat :=
  (tr.filter (fun e => match e with
    | Effect.spawn _ p => p.name == n
    | _ => false)).length

/-- Number of `stop()` calls observed on pipelines named `n`. -/
def stopCallsFor (tr : List Effect) (n : String) : Nat :=
  (tr.filter (fun e => match e with
    | Effect.stopCall p => p.name == n
    | _ => false)).length

/-- The heap of mutable field stores: each avro-backed event object owns a
reference (`Nat` index) into this store, its `_inner_dict`. -/
structure Heap where
  store : List JsonObj

/-- Dereference a field store. -/
def heapRead (h : Heap) (r : Nat) : JsonObj :=
  h.store.getD r []

/-- Overwrite a field store in place. -/
def heapWrite (h : Heap) (r : Nat) (d : JsonObj) : Heap :=
  ⟨h.store.set r d⟩

/-- An event object: a wrapper holding a reference to its `_inner_dict`. -/
structure EventObj where
  innerRef : Nat
deriving DecidableEq

/-- `cls.construct({})`: allocate an instance over a fresh empty dict. -/
def construct (h : Heap) : Heap × EventObj :=
  (⟨h.store ++ [[]]⟩, ⟨h.store.length⟩)

/-- `from_class` of `MetadataChangeLogEvent` and of `EntityChangeEvent`
(event_registry.py lines 32-38 and 52-58, textually identical):
`construct({})`, `_restore_defaults()` (write the schema defaults into the
fresh dict), then `instance._inner_dict = clazz._inner_dict` — rebinding the
wrapper's reference to the source record's own field store. -/
def from_class (h : Heap) (defaults : JsonObj) (clazz : EventObj) : Heap × EventObj :=
  let hc := construct h
  let h2 := heapWrite hc.1 hc.2.innerRef defaults
  (h2, ⟨clazz.innerRef⟩)

/-- Read a field through an object reference. -/
def getField (h : Heap) (o : EventObj) (k : String) : Option Json :=
  dictLookup (heapRead h o.innerRef) k

/-- Mutate a field through an object reference (`obj._inner_dict[k] = v`). -/
def setField (h : Heap) (o : EventObj) (k : String) (v : Json) : Heap :=
  heapWrite h o.innerRef (dictInsert (heapRead h o.innerRef) k v)

/-- Modelled from the spec: the declared field list of the change-log
schema (`MetadataChangeLogClass` lives in the `datahub` dependency, not
under `src/`); the spec only requires a fixed canonical field list. -/
def mclSchema : List String :=
  ["entityType", "changeType", "entityUrn", "entityKeyAspect", "aspectName",
   "aspect", "systemMetadata", "previousAspectValue", "previousSystemMetadata",
   "created"]

/-- Modelled from the spec: the declared field list of the entity-change
schema (`EntityChangeEventClass` lives in the `datahub` dependency, not
under `src/`), with the free-form `parameters` field among the canonical
fields. -/
def eceSchema : List String :=
  ["entityType", "entityUrn", "category", "operation", "auditStamp",
   "version", "modifier", "source", "parameters"]

/-- Modelled from the spec: the strict generic serializer (`to_obj` of the
avro-generated base class, not under `src/`): it emits exactly the declared
schema fields in schema order, reading each from the field store. -/
def strict_to_obj (schema : List String) (inner : JsonObj) : JsonObj :=
  schema.map (fun f => (f, (dictLookup inner f).getD Json.null))

/-- Modelled from the spec: the strict parser (`from_obj` of the
avro-generated base class, not under `src/`): it rejects unknown and
missing required fields — the payload must carry exactly the declared
field list — and adopts the parsed fields as the instance's field store. -/
def strict_from_obj (schema : List String) (obj : JsonObj) : Option JsonObj :=
  if dictKeys obj = schema then some obj else none

/-- Modelled from the spec: `EntityChangeEventClass.to_obj` "silently drops
or cannot type" the free-form `parameters` field; the strict serializer
covers the remaining declared fields. -/
def ece_to_obj (inner : JsonObj) : JsonObj :=
  strict_to_obj (eceSchema.filter (fun f => f != "parameters")) inner

/-- `MetadataChangeLogEvent.as_json` (event_registry.py lines 45-46):
`json.dumps(self.to_obj())`. -/
def mcl_as_json (inner : JsonObj) : JsonObj :=
  strict_to_obj mclSchema inner

/-- `MetadataChangeLogEvent.from_json` (event_registry.py lines 40-43):
`json.loads` then `cls.from_obj(json_obj, True)`. -/
def mcl_from_json (obj : JsonObj) : Option JsonObj :=
  strict_from_obj mclSchema obj

/-- `EntityChangeEvent.as_json` (event_registry.py lines 65-71): run
`self.to_obj()`, then set `json_obj["parameters"]` to
`self._inner_dict["parameters"]` when that key is present and to `{}`
otherwise, then `json.dumps`. -/
def ece_as_json (inner : JsonObj) : JsonObj :=
  let json_obj := ece_to_obj inner
  dictInsert json_obj "parameters" ((dictLookup inner "parameters").getD (Json.obj []))

/-- `EntityChangeEvent.from_json` (event_registry.py lines 60-63):
`json.loads` then `cls.from_obj(json_obj, True)`. -/
def ece_from_json (obj : JsonObj) : Option JsonObj :=
  strict_from_obj eceSchema obj

/-- An event instance is well-formed when its field store binds exactly the
declared schema fields: programmatic construction restores every default and
strict parsing accepts exactly the schema fields. -/
abbrev wfEvent (schema : List String) (inner : JsonObj) : Prop :=
  dictKeys inner = schema

/-- Field-equality of two event instances over a schema: every declared
field holds the same value in both field stores. -/
def fieldEq (schema : List String) (inner1 inner2 : JsonObj) : Prop :=
  ∀ f ∈ schema, dictLookup inner1 f = dictLookup inner2 f

theorem dictLookup_insert_self {α : Type} (d : List (String × α)) (k : String) (v : α) :
    dictLookup (dictInsert d k v) k = some v := by
  induction d with
  | nil => simp [dictInsert, dictLookup]
  | cons hd tl ih =>
    obtain ⟨k', w⟩ := hd
    by_cases h : k' = k
    · simp [dictInsert, dictLookup, h]
    · simp [dictInsert, dictLookup, h, ih]

theorem dictLookup_delete_ne {α : Type} (d : List (String × α)) (k k' : String)
    (h : k ≠ k') : dictLookup (dictDelete d k') k = dictLookup d k := by
  induction d with
  | nil => simp [dictDelete]
  | cons hd tl ih =>
    obtain ⟨k₀, w⟩ := hd
    by_cases h0 : k₀ = k'
    · subst h0
      simp [dictDelete, dictLookup, Ne.symm h]
    · simp [dictDelete, dictLookup, h0, ih]

theorem dictLookup_insert_ne {α : Type} (d : List (String × α)) (k k' : String) (v : α)
    (h : k ≠ k') : dictLookup (dictInsert d k' v) k = dictLookup d k := by
  induction d with
  | nil => simp [dictInsert, dictLookup, Ne.symm h]
  | cons hd tl ih =>
    obtain ⟨k₀, w⟩ := hd
    by_cases h0 : k₀ = k'
    · subst h0
      simp [dictInsert, dictLookup, Ne.symm h]
    · simp [dictInsert, dictLookup, h0, ih]

theorem dictContains_insert_self {α : Type} (d : List (String × α)) (k : String) (v : α) :
    dictContains (dictInsert d k v) k = true := by
  simp [dictContains, dictLookup_insert_self]

theorem dictLookup_isSome_of_mem_keys {α : Type} (d : List (String × α)) (k : String)
    (h : k ∈ dictKeys d) : (dictLookup d k).isSome = true := by
  induction d with
  | nil => simp [dictKeys] at h
  | cons hd tl ih =>
    obtain ⟨k₀, w⟩ := hd
    by_cases h0 : k₀ = k
    · simp [dictLookup, h0]
    · have hk : k ∈ dictKeys tl := by
        simp [dictKeys] at h ⊢
        exact h.resolve_left (fun hx => h0 hx.symm)
      simp [dictLookup, h0, ih hk]

theorem dictInsert_eq_append_of_not_mem {α : Type} (d : List (String × α)) (k : String)
    (v : α) (h : k ∉ dictKeys d) : dictInsert d k v = d ++ [(k, v)] := by
  induction d with
  | nil => simp [dictInsert]
  | cons hd tl ih =>
    obtain ⟨k₀, w⟩ := hd
    rw [show dictKeys ((k₀, w) :: tl) = k₀ :: dictKeys tl from rfl, List.mem_cons] at h
    push_neg at h
    simp [dictInsert, Ne.symm h.1, ih h.2]

theorem dictKeys_strict_to_obj (schema : List String) (inner : JsonObj) :
    dictKeys (strict_to_obj schema inner) = schema := by
  simp [dictKeys, strict_to_obj, List.map_map]
  exact List.map_id schema

theorem dictLookup_strict_to_obj (schema : List String) (inner : JsonObj) (f : String)
    (h : f ∈ schema) :
    dictLookup (strict_to_obj schema inner) f =
      some ((dictLookup inner f).getD Json.null) := by
  induction schema with
  | nil => cases h
  | cons g rest ih =>
    by_cases hg : g = f
    · subst hg
      simp [strict_to_obj, dictLookup]
    · have hf : f ∈ rest := by
        cases h with
        | head => exact absurd rfl hg
        | tail _ hm => exact hm
      simpa [strict_to_obj, dictLookup, hg] using ih hf

theorem heapRead_heapWrite_self (h : Heap) (r : Nat) (d : JsonObj)
    (hr : r < h.store.length) : heapRead (heapWrite h r d) r = d := by
  simp [heapRead, heapWrite, List.getD, List.getElem?_set_self hr]

theorem dictKeys_append {α : Type} (d1 d2 : List (String × α)) :
    dictKeys (d1 ++ d2) = dictKeys d1 ++ dictKeys d2 := by
  simp [dictKeys]

theorem getField_setField_self (h : Heap) (o o' : EventObj) (k : String) (v : Json)
    (href : o.innerRef = o'.innerRef) (hr : o.innerRef < h.store.length) :
    getField (setField h o k v) o' k = some v := by
  simp only [getField, setField]
  rw [← href, heapRead_heapWrite_self h o.innerRef _ hr]
  exact dictLookup_insert_self _ _ _

theorem ece_keys_as_json (inner : JsonObj) : dictKeys (ece_as_json inner) = eceSchema := by
  have h2 : "parameters" ∉ dictKeys (ece_to_obj inner) := by
    rw [ece_to_obj, dictKeys_strict_to_obj]
    decide
  simp only [ece_as_json]
  rw [dictInsert_eq_append_of_not_mem _ _ _ h2, dictKeys_append, ece_to_obj,
    dictKeys_strict_to_obj]
  simp only [dictKeys, List.map_cons, List.map_nil]
  decide

theorem mcl_roundtrip_aux (inner : JsonObj) (hwf : wfEvent mclSchema inner) :
    mcl_from_json (mcl_as_json inner) = some (mcl_as_json inner) ∧
    fieldEq mclSchema (mcl_as_json inner) inner := by
  constructor
  · simp [mcl_from_json, strict_from_obj, mcl_as_json, dictKeys_strict_to_obj]
  · simp only [fieldEq]
    intro f hf
    have hs := dictLookup_isSome_of_mem_keys inner f (by rw [hwf]; exact hf)
    obtain ⟨v, hv⟩ := Option.isSome_iff_exists.mp hs
    rw [mcl_as_json, dictLookup_strict_to_obj _ _ _ hf, hv]
    rfl

theorem ece_roundtrip_aux (inner : JsonObj) (hwf : wfEvent eceSchema inner) :
    ece_from_json (ece_as_json inner) = some (ece_as_json inner) ∧
    fieldEq eceSchema (ece_as_json inner) inner := by
  constructor
  · simp [ece_from_json, strict_from_obj, ece_keys_as_json]
  · simp only [fieldEq]
    intro f hf
    have hs := dictLookup_isSome_of_mem_keys inner f (by rw [hwf]; exact hf)
    obtain ⟨v, hv⟩ := Option.isSome_iff_exists.mp hs
    by_cases hp : f = "parameters"
    · subst hp
      simp only [ece_as_json]
      rw [dictLookup_insert_self, hv]
      rfl
    · have hf' : f ∈ eceSchema.filter (fun g => g != "parameters") := by
        rw [List.mem_filter]
        exact ⟨hf, by simp [hp]⟩
      simp only [ece_as_json]
      rw [dictLookup_insert_ne _ _ _ _ hp, ece_to_obj,
        dictLookup_strict_to_obj _ _ _ hf', hv]
      rfl

/-- Sample change-log field store: every declared field bound. -/
def sampleMclInner : JsonObj :=
  mclSchema.map (fun f => (f, Json.str f))

/-- Sample entity-change field store with a nested `parameters` value. -/
def sampleEceInner : JsonObj :=
  [("entityType", Json.str "dataset"),
   ("entityUrn", Json.str "urn:li:dataset:1"),
   ("category", Json.str "TAG"),
   ("operation", Json.str "ADD"),
   ("auditStamp", Json.obj [("time", Json.num 0)]),
   ("version", Json.num 0),
   ("modifier", Json.str "urn:li:tag:pii"),
   ("source", Json.null),
   ("parameters",
     Json.obj [("a", Json.obj [("b", Json.arr [Json.num 1, Json.str "x"])])])]

/-- A one-object heap and a record reference into it. -/
def sampleHeap : Heap := ⟨[[("x", Json.null)]]⟩

/-- The record adopted by `from_class` in the C9 witness. -/
def sampleRecord : EventObj := ⟨0⟩

/-- **C7.** For every entity-change event, `as_json` runs the strict generic
serializer and then overwrites/inserts the `"parameters"` key of the
resulting JSON object with the live value held in the event's internal field
store, defaulting to the empty map when the internal entry is absent: in the
output, `"parameters"` holds exactly that live value and every other key
holds exactly what the strict serializer produced. -/
theorem ece_as_json_parameters_override (inner : JsonObj) (k : String) :
    dictLookup (ece_as_json inner) "parameters" =
      some ((dictLookup inner "parameters").getD (Json.obj [])) ∧
    (k ≠ "parameters" →
      dictLookup (ece_as_json inner) k = dictLookup (ece_to_obj inner) k) := by
  constructor
  · simp only [ece_as_json]
    exact dictLookup_insert_self _ _ _
  · intro hk
    simp only [ece_as_json]
    exact dictLookup_insert_ne _ _ _ _ hk

/-- Witness for C7: an event whose field store lacks `"parameters"`
serializes it as the empty map, and the `"entityType"` key is exactly the
strict serializer's output. -/
theorem ece_as_json_parameters_override_witness :
    dictLookup (ece_as_json []) "parameters" = some (Json.obj []) ∧
    dictLookup (ece_as_json []) "entityType" = dictLookup (ece_to_obj []) "entityType" := by
  have h := ece_as_json_parameters_override [] "entityType"
  exact ⟨h.1, h.2 (by decide)⟩

/-- **C8.** Round-trip: for every well-formed event of either built-in kind,
parsing the serialized form succeeds and yields a value field-equal to the
original, the free-form `parameters` field of entity-change events (of any
nesting) included. -/
theorem event_roundtrip :
    (∀ inner, wfEvent mclSchema inner →
      mcl_from_json (mcl_as_json inner) = some (mcl_as_json inner) ∧
      fieldEq mclSchema (mcl_as_json inner) inner) ∧
    (∀ inner, wfEvent eceSchema inner →
      ece_from_json (ece_as_json inner) = some (ece_as_json inner) ∧
      fieldEq eceSchema (ece_as_json inner) inner) :=
  ⟨fun inner h => mcl_roundtrip_aux inner h, fun inner h => ece_roundtrip_aux inner h⟩

/-- Witness for C8 at the sample events (nested `parameters` included). -/
theorem event_roundtrip_witness :
    mcl_from_json (mcl_as_json sampleMclInner) = some (mcl_as_json sampleMclInner) ∧
    dictLookup (mcl_as_json sampleMclInner) "entityType" =
      dictLookup sampleMclInner "entityType" ∧
    ece_from_json (ece_as_json sampleEceInner) = some (ece_as_json sampleEceInner) ∧
    dictLookup (ece_as_json sampleEceInner) "parameters" =
      dictLookup sampleEceInner "parameters" := by
  have h1 := event_roundtrip.1 sampleMclInner (by decide)
  have h2 := event_roundtrip.2 sampleEceInner (by decide)
  exact ⟨h1.1, h1.2 "entityType" (by decide), h2.1, h2.2 "parameters" (by decide)⟩

/-- **C9.** `from_class` is a shallow adoption: the returned wrapper holds
the very reference of the source record's field store (no field copy), so a
mutation through either reference is read back through the other. -/
theorem from_class_shallow_adoption (h : Heap) (defaults : JsonObj) (clazz : EventObj)
    (k : String) (v : Json) (hr : clazz.innerRef < h.store.length) :
    (from_class h defaults clazz).2 = clazz ∧
    getField (setField (from_class h defaults clazz).1 (from_class h defaults clazz).2 k v)
      clazz k = some v ∧
    getField (setField (from_class h defaults clazz).1 clazz k v)
      (from_class h defaults clazz).2 k = some v := by
  have hlen : clazz.innerRef < (from_class h defaults clazz).1.store.length := by
    simp [from_class, construct, heapWrite]
    omega
  exact ⟨rfl, getField_setField_self _ _ _ _ _ rfl hlen,
    getField_setField_self _ _ _ _ _ rfl hlen⟩

/-- Witness for C9 at a one-object heap. -/
theorem from_class_shallow_adoption_witness :
    (from_class sampleHeap [] sampleRecord).2 = sampleRecord ∧
    getField (setField (from_class sampleHeap [] sampleRecord).1
      (from_class sampleHeap [] sampleRecord).2 "k" (Json.num 5))
      sampleRecord "k" = some (Json.num 5) ∧
    getField (setField (from_class sampleHeap [] sampleRecord).1
      sampleRecord "k" (Json.num 5))
      (from_class sampleHeap [] sampleRecord).2 "k" = some (Json.num 5) :=
  from_class_shallow_adoption sampleHeap [] sampleRecord "k" (Json.num 5) (by decide)

theorem workersFor_append (t1 t2 : List Effect) (n : String) :
    workersFor (t1 ++ t2) n = workersFor t1 n + workersFor t2 n := by
  simp [workersFor, List.filter_append]

theorem stopCallsFor_append (t1 t2 : List Effect) (n : String) :
    stopCallsFor (t1 ++ t2) n = stopCallsFor t1 n + stopCallsFor t2 n := by
  simp [stopCallsFor, List.filter_append]

theorem terminate_pipeline_not_found (s : ManagerState) (name : String)
    (h : dictLookup s.pipeline_registry name = none) :
    terminate_pipeline s name = (s, some (PipelineError.notFound name)) := by
  simp [terminate_pipeline, h]

theorem terminate_pipeline_clean (s : ManagerState) (name : String) (sp : PipelineSpec)
    (h : dictLookup s.pipeline_registry name = some sp)
    (h1 : sp.pipeline.stopRaises = false) (h2 : sp.pipeline.joinRaises = false)
    (h3 : sp.pipeline.statsRaises = false) :
    terminate_pipeline s name =
      ({ pipeline_registry := dictDelete s.pipeline_registry name,
         nextTid := s.nextTid,
         trace := s.trace ++ [Effect.stopCall sp.pipeline, Effect.joinCall sp.thread,
                              Effect.statsCall name] }, none) := by
  simp [terminate_pipeline, h, h1, h2, h3]

theorem terminate_pipeline_stop_raises (s : ManagerState) (name : String)
    (sp : PipelineSpec) (h : dictLookup s.pipeline_registry name = some sp)
    (h1 : sp.pipeline.stopRaises = true) :
    terminate_pipeline s name =
      ({ s with trace := s.trace ++ [Effect.stopCall sp.pipeline] },
       some (PipelineError.terminationFailed name)) := by
  simp [terminate_pipeline, h, h1]

theorem terminate_pipeline_join_raises (s : ManagerState) (name : String)
    (sp : PipelineSpec) (h : dictLookup s.pipeline_registry name = some sp)
    (h1 : sp.pipeline.stopRaises = false) (h2 : sp.pipeline.joinRaises = true) :
    terminate_pipeline s name =
      ({ s with trace := s.trace ++ [Effect.stopCall sp.pipeline,
                                     Effect.joinCall sp.thread] },
       some (PipelineError.terminationFailed name)) := by
  simp [terminate_pipeline, h, h1, h2]

theorem terminate_pipeline_stats_raises (s : ManagerState) (name : String)
    (sp : PipelineSpec) (h : dictLookup s.pipeline_registry name = some sp)
    (h1 : sp.pipeline.stopRaises = false) (h2 : sp.pipeline.joinRaises = false)
    (h3 : sp.pipeline.statsRaises = true) :
    terminate_pipeline s name =
      ({ s with trace := s.trace ++ [Effect.stopCall sp.pipeline,
                                     Effect.joinCall sp.thread,
                                     Effect.statsCall name] },
       some (PipelineError.terminationFailed name)) := by
  simp [terminate_pipeline, h, h1, h2, h3]

/-- The manager's initial state: empty registry, no threads, no effects. -/
def emptyState : ManagerState := ⟨[], 0, []⟩

/-- A healthy pipeline named "a". -/
def pipeA : Pipeline := ⟨"a", false, false, false, false⟩

/-- A healthy pipeline named "b". -/
def pipeB : Pipeline := ⟨"b", false, false, false, false⟩

/-- A healthy pipeline named "c". -/
def pipeC : Pipeline := ⟨"c", false, false, false, false⟩

/-- A healthy pipeline named "p". -/
def pipeP : Pipeline := ⟨"p", false, false, false, false⟩

/-- A healthy pipeline named "q" — its own name differs from the key "p"
under which the C1 scenario starts it. -/
def pipeQ : Pipeline := ⟨"q", false, false, false, false⟩

/-- A pipeline whose `stop()` raises. -/
def stopFailPipe : Pipeline := ⟨"d", false, true, false, false⟩

/-- A pipeline whose `stats().pretty_print_summary(...)` raises. -/
def statsFailPipe : Pipeline := ⟨"e", false, false, false, true⟩

/-- A pipeline whose `run()` raises inside the worker. -/
def crashPipe : Pipeline := ⟨"x", true, false, false, false⟩

/-- A state holding the single registered healthy pipeline "a". -/
def stateA : ManagerState := ⟨[("a", ⟨"a", pipeA, 0⟩)], 1, []⟩

/-- A state holding the single registered stop-failing pipeline "d". -/
def stateD : ManagerState := ⟨[("d", ⟨"d", stopFailPipe, 0⟩)], 1, []⟩

/-- A state holding the single registered stats-failing pipeline "e". -/
def stateE : ManagerState := ⟨[("e", ⟨"e", statsFailPipe, 0⟩)], 1, []⟩

/-- A state holding the single registered crashing pipeline "x". -/
def stateX : ManagerState := ⟨[("x", ⟨"x", crashPipe, 0⟩)], 1, []⟩

/-- **C2.** `start_pipeline(name, pipeline)` fails with AlreadyRunning when
`name` is already a key of the registry (leaving the state untouched);
otherwise it spawns one dedicated worker for `pipeline`, inserts a record
keyed by `pipeline.name` — the pipeline's own attribute, not the caller's
argument — and returns with no error, having recorded no effect beyond the
spawn (non-blocking). -/
theorem start_pipeline_spec (s : ManagerState) (name : String) (p : Pipeline) :
    (dictContains s.pipeline_registry name = true →
      start_pipeline s name p = (s, some (PipelineError.alreadyRunning name))) ∧
    (dictContains s.pipeline_registry name = false →
      start_pipeline s name p =
        ({ pipeline_registry := dictInsert s.pipeline_registry p.name
             ⟨name, p, s.nextTid⟩,
           nextTid := s.nextTid + 1,
           trace := s.trace ++ [Effect.spawn s.nextTid p] }, none)) := by
  constructor <;> intro h <;> simp [start_pipeline, h]

/-- Witness for C2: a duplicate start fails, a fresh start registers the
pipeline under its own name and records exactly one spawn. -/
theorem start_pipeline_spec_witness :
    start_pipeline stateA "a" pipeA = (stateA, some (PipelineError.alreadyRunning "a")) ∧
    start_pipeline emptyState "a" pipeA =
      (ManagerState.mk [("a", ⟨"a", pipeA, 0⟩)] 1 [Effect.spawn 0 pipeA], none) := by
  refine ⟨(start_pipeline_spec stateA "a" pipeA).1 (by decide), ?_⟩
  exact (start_pipeline_spec emptyState "a" pipeA).2 (by decide)

/-- **C3.** `terminate_pipeline(name)` fails with NotFound when `name` is
absent, leaving the state (registry included) exactly as it was; when
present it performs, in order, `pipeline.stop()`, the worker join (no
timeout exists in the model, as in the source), the statistics report, and
only then removes the record. -/
theorem terminate_pipeline_spec (s : ManagerState) (name : String) :
    (dictLookup s.pipeline_registry name = none →
      terminate_pipeline s name = (s, some (PipelineError.notFound name))) ∧
    (∀ sp, dictLookup s.pipeline_registry name = some sp →
      sp.pipeline.stopRaises = false → sp.pipeline.joinRaises = false →
      sp.pipeline.statsRaises = false →
      terminate_pipeline s name =
        ({ pipeline_registry := dictDelete s.pipeline_registry name,
           nextTid := s.nextTid,
           trace := s.trace ++ [Effect.stopCall sp.pipeline, Effect.joinCall sp.thread,
                                Effect.statsCall name] }, none)) := by
  constructor
  · intro h
    exact terminate_pipeline_not_found s name h
  · intro sp h h1 h2 h3
    exact terminate_pipeline_clean s name sp h h1 h2 h3

/-- Witness for C3: terminating a missing name returns NotFound with the
state unchanged; terminating the present "a" stops, joins, reports and
deletes. -/
theorem terminate_pipeline_spec_witness :
    terminate_pipeline stateA "missing" = (stateA, some (PipelineError.notFound "missing")) ∧
    terminate_pipeline stateA "a" =
      (ManagerState.mk [] 1 [Effect.stopCall pipeA, Effect.joinCall 0,
        Effect.statsCall "a"], none) := by
  refine ⟨(terminate_pipeline_spec stateA "missing").1 (by decide), ?_⟩
  exact (terminate_pipeline_spec stateA "a").2 ⟨"a", pipeA, 0⟩ (by decide) (by decide)
    (by decide) (by decide)

/-- **C4.** If `stop()` or the join raises during `terminate_pipeline` of a
present name, the record is not removed — the registry is exactly what it
was and still maps `name` to its record — and the failure is re-signaled as
a termination failure. -/
theorem terminate_failure_keeps_record (s : ManagerState) (name : String)
    (sp : PipelineSpec) (h : dictLookup s.pipeline_registry name = some sp)
    (hf : sp.pipeline.stopRaises = true ∨ sp.pipeline.joinRaises = true) :
    (terminate_pipeline s name).1.pipeline_registry = s.pipeline_registry ∧
    dictLookup (terminate_pipeline s name).1.pipeline_registry name = some sp ∧
    (terminate_pipeline s name).2 = some (PipelineError.terminationFailed name) := by
  by_cases hs : sp.pipeline.stopRaises = true
  · rw [terminate_pipeline_stop_raises s name sp h hs]
    exact ⟨rfl, h, rfl⟩
  · have hs' : sp.pipeline.stopRaises = false := by
      simpa using hs
    have hj : sp.pipeline.joinRaises = true := hf.resolve_left hs
    rw [terminate_pipeline_join_raises s name sp h hs' hj]
    exact ⟨rfl, h, rfl⟩

/-- Witness for C4 at the stop-failing pipeline "d". -/
theorem terminate_failure_keeps_record_witness :
    (terminate_pipeline stateD "d").1.pipeline_registry = stateD.pipeline_registry ∧
    dictLookup (terminate_pipeline stateD "d").1.pipeline_registry "d" =
      some ⟨"d", stopFailPipe, 0⟩ ∧
    (terminate_pipeline stateD "d").2 = some (PipelineError.terminationFailed "d") :=
  terminate_failure_keeps_record stateD "d" ⟨"d", stopFailPipe, 0⟩ (by decide) (by decide)

/-- **C10.** When `stop()` and the join succeed but the statistics report
(`pipeline.stats().pretty_print_summary(name)`) raises, the record is
likewise not removed and the same termination failure is surfaced, since
the statistics call and the deletion sit inside the same `try` block. -/
theorem terminate_stats_failure_keeps_record (s : ManagerState) (name : String)
    (sp : PipelineSpec) (h : dictLookup s.pipeline_registry name = some sp)
    (h1 : sp.pipeline.stopRaises = false) (h2 : sp.pipeline.joinRaises = false)
    (h3 : sp.pipeline.statsRaises = true) :
    (terminate_pipeline s name).1.pipeline_registry = s.pipeline_registry ∧
    dictLookup (terminate_pipeline s name).1.pipeline_registry name = some sp ∧
    (terminate_pipeline s name).2 = some (PipelineError.terminationFailed name) := by
  rw [terminate_pipeline_stats_raises s name sp h h1 h2 h3]
  exact ⟨rfl, h, rfl⟩

/-- Witness for C10 at the stats-failing pipeline "e". -/
theorem terminate_stats_failure_keeps_record_witness :
    (terminate_pipeline stateE "e").1.pipeline_registry = stateE.pipeline_registry ∧
    dictLookup (terminate_pipeline stateE "e").1.pipeline_registry "e" =
      some ⟨"e", statsFailPipe, 0⟩ ∧
    (terminate_pipeline stateE "e").2 = some (PipelineError.terminationFailed "e") :=
  terminate_stats_failure_keeps_record stateE "e" ⟨"e", statsFailPipe, 0⟩ (by decide)
    (by decide) (by decide) (by decide)

/-- **C6.** When `run()` raises inside the worker, the worker logs a trace
bounded to depth 3, invokes `pipeline.stop()` best-effort, and exits; the
manager state — the registry in particular — is untouched, so the record
stays present until explicitly terminated. -/
theorem run_pipeline_crash_path (s : ManagerState) (p : Pipeline)
    (h : p.runRaises = true) :
    (run_pipeline s p).1 = s ∧
    WorkerEffect.logError 3 ∈ (run_pipeline s p).2.1 ∧
    WorkerEffect.stopCall ∈ (run_pipeline s p).2.1 := by
  by_cases hs : p.stopRaises = true <;> simp [run_pipeline, h, hs]

/-- Witness for C6 at the crashing pipeline "x" registered in `stateX`. -/
theorem run_pipeline_crash_path_witness :
    (run_pipeline stateX crashPipe).1 = stateX ∧
    WorkerEffect.logError 3 ∈ (run_pipeline stateX crashPipe).2.1 ∧
    WorkerEffect.stopCall ∈ (run_pipeline stateX crashPipe).2.1 :=
  run_pipeline_crash_path stateX crashPipe (by decide)

/-- Counterexample to C1 as stated: the claim quantifies over every
pipeline object, but `start_pipeline` checks membership under the
caller-supplied name and inserts under `pipeline.name`.  Starting the
pipeline named "q" under the key "p" and then calling
`start_pipeline("p", ...)` again therefore succeeds (no AlreadyRunning),
and no worker at all exists for "p" — two exist for "q". -/
theorem start_single_flight_counterexample :
    (start_pipeline (start_pipeline emptyState "p" pipeQ).1 "p" pipeQ).2 = none ∧
    workersFor (start_pipeline (start_pipeline emptyState "p" pipeQ).1 "p" pipeQ).1.trace
      "p" = 0 ∧
    workersFor (start_pipeline (start_pipeline emptyState "p" pipeQ).1 "p" pipeQ).1.trace
      "q" = 2 := by
  decide

/-- **C1 (amended).** For every pipeline object whose own `name` attribute
equals "p", in a state where "p" is not yet registered and no worker for
"p" was spawned, `start_pipeline("p", pipeline)` succeeds and an immediate
`start_pipeline("p", anyPipeline)` fails with AlreadyRunning, with exactly
one worker in existence for "p" afterwards. -/
theorem start_single_flight_amended (s : ManagerState) (p q : Pipeline)
    (hreg : dictContains s.pipeline_registry "p" = false)
    (hname : p.name = "p")
    (hw : workersFor s.trace "p" = 0) :
    (start_pipeline s "p" p).2 = none ∧
    (start_pipeline (start_pipeline s "p" p).1 "p" q).2 =
      some (PipelineError.alreadyRunning "p") ∧
    workersFor (start_pipeline (start_pipeline s "p" p).1 "p" q).1.trace "p" = 1 := by
  have h1 : start_pipeline s "p" p =
      ({ pipeline_registry := dictInsert s.pipeline_registry p.name ⟨"p", p, s.nextTid⟩,
         nextTid := s.nextTid + 1,
         trace := s.trace ++ [Effect.spawn s.nextTid p] }, none) := by
    simp [start_pipeline, hreg]
  have hc : dictContains
      (dictInsert s.pipeline_registry p.name ⟨"p", p, s.nextTid⟩) "p" = true := by
    rw [hname]
    exact dictContains_insert_self _ _ _
  rw [h1]
  refine ⟨rfl, ?_, ?_⟩
  · simp [start_pipeline, hc]
  · rw [hname] at hc ⊢
    simp only [start_pipeline, hc, if_true]
    rw [workersFor_append, hw]
    simp [workersFor, hname]

/-- Witness for the amended C1 at the empty state with the healthy
pipeline named "p". -/
theorem start_single_flight_amended_witness :
    (start_pipeline emptyState "p" pipeP).2 = none ∧
    (start_pipeline (start_pipeline emptyState "p" pipeP).1 "p" pipeQ).2 =
      some (PipelineError.alreadyRunning "p") ∧
    workersFor (start_pipeline (start_pipeline emptyState "p" pipeP).1 "p" pipeQ).1.trace
      "p" = 1 :=
  start_single_flight_amended emptyState pipeP pipeQ (by decide) (by decide) (by decide)

/-- The effects a fully successful `terminate_all` appends: stop, join and
stats for each registry entry, in registry (snapshot) order. -/
def shutdownTrace : List (String × PipelineSpec) → List Effect
  | [] => []
  | (k, sp) :: rest =>
    Effect.stopCall sp.pipeline :: Effect.joinCall sp.thread :: Effect.statsCall k ::
      shutdownTrace rest

/-- A registry entry none of whose terminate-path calls raise. -/
abbrev cleanEntry (e : String × PipelineSpec) : Prop :=
  e.2.pipeline.stopRaises = false ∧ e.2.pipeline.joinRaises = false ∧
    e.2.pipeline.statsRaises = false

theorem stopCallsFor_cons_stop (p : Pipeline) (tr : List Effect) (n : String) :
    stopCallsFor (Effect.stopCall p :: tr) n =
      (if p.name = n then 1 else 0) + stopCallsFor tr n := by
  by_cases h : p.name = n
  · simp [stopCallsFor, List.filter_cons, h]
    omega
  · simp [stopCallsFor, List.filter_cons, h]

theorem stopCallsFor_cons_join (t : Nat) (tr : List Effect) (n : String) :
    stopCallsFor (Effect.joinCall t :: tr) n = stopCallsFor tr n := by
  simp [stopCallsFor, List.filter_cons]

theorem stopCallsFor_cons_stats (m : String) (tr : List Effect) (n : String) :
    stopCallsFor (Effect.statsCall m :: tr) n = stopCallsFor tr n := by
  simp [stopCallsFor, List.filter_cons]

theorem stopCallsFor_shutdownTrace_absent (reg : List (String × PipelineSpec)) (n : String) :
    (∀ e ∈ reg, e.2.pipeline.name = e.1) → n ∉ dictKeys reg →
    stopCallsFor (shutdownTrace reg) n = 0 := by
  induction reg with
  | nil => intro _ _; simp [shutdownTrace, stopCallsFor]
  | cons hd rest ih =>
    intro hwf h
    obtain ⟨k, sp⟩ := hd
    rw [show dictKeys ((k, sp) :: rest) = k :: dictKeys rest from rfl, List.mem_cons] at h
    push_neg at h
    have hn : sp.pipeline.name ≠ n := by
      rw [hwf (k, sp) (List.mem_cons_self _ _)]
      exact fun hx => h.1 hx.symm
    simp only [shutdownTrace, stopCallsFor_cons_stop, stopCallsFor_cons_join,
      stopCallsFor_cons_stats, if_neg hn]
    rw [ih (fun e he => hwf e (List.mem_cons_of_mem _ he)) h.2]

theorem stopCallsFor_shutdownTrace_once (reg : List (String × PipelineSpec)) :
    (∀ e ∈ reg, e.2.pipeline.name = e.1) → (dictKeys reg).Nodup →
    ∀ e ∈ reg, stopCallsFor (shutdownTrace reg) e.1 = 1 := by
  induction reg with
  | nil => intro _ _ e he; exact absurd he (List.not_mem_nil e)
  | cons hd rest ih =>
    intro hwf hnd e he
    obtain ⟨k0, sp0⟩ := hd
    have hname0 : sp0.pipeline.name = k0 := hwf (k0, sp0) (List.mem_cons_self _ _)
    rw [show dictKeys ((k0, sp0) :: rest) = k0 :: dictKeys rest from rfl,
      List.nodup_cons] at hnd
    have hwf' : ∀ e ∈ rest, e.2.pipeline.name = e.1 :=
      fun e he => hwf e (List.mem_cons_of_mem _ he)
    rcases List.mem_cons.mp he with he0 | he0
    · subst he0
      simp only [shutdownTrace, stopCallsFor_cons_stop, stopCallsFor_cons_join,
        stopCallsFor_cons_stats, hname0]
      rw [stopCallsFor_shutdownTrace_absent rest k0 hwf' hnd.1]
      simp
    · have hkne : sp0.pipeline.name ≠ e.1 := by
        rw [hname0]
        intro hx
        exact hnd.1 (hx ▸ List.mem_map_of_mem Prod.fst he0)
      simp only [shutdownTrace, stopCallsFor_cons_stop, stopCallsFor_cons_join,
        stopCallsFor_cons_stats, if_neg hkne]
      rw [ih hwf' hnd.2 e he0]

theorem terminate_all_go_clean (reg : List (String × PipelineSpec)) :
    ∀ (nt : Nat) (tr : List Effect),
    (∀ e ∈ reg, cleanEntry e) →
    terminate_all_go (dictKeys reg) ⟨reg, nt, tr⟩ =
      (⟨[], nt, tr ++ shutdownTrace reg⟩, none) := by
  induction reg with
  | nil => intro nt tr _; simp [dictKeys, terminate_all_go, shutdownTrace]
  | cons hd rest ih =>
    intro nt tr hc
    obtain ⟨k, sp⟩ := hd
    have hck := hc (k, sp) (List.mem_cons_self _ _)
    have hlk : dictLookup ((k, sp) :: rest) k = some sp := by simp [dictLookup]
    have hterm := terminate_pipeline_clean ⟨(k, sp) :: rest, nt, tr⟩ k sp hlk
      hck.1 hck.2.1 hck.2.2
    have hdel : dictDelete ((k, sp) :: rest) k = rest := by simp [dictDelete]
    rw [show dictKeys ((k, sp) :: rest) = k :: dictKeys rest from rfl]
    simp only [terminate_all_go]
    rw [hterm]
    simp only [hdel]
    rw [ih nt (tr ++ [Effect.stopCall sp.pipeline, Effect.joinCall sp.thread,
      Effect.statsCall k]) (fun e he => hc e (List.mem_cons_of_mem _ he))]
    simp [shutdownTrace]

/-- The state reached by starting the healthy pipelines "a", "b", "c". -/
def stateABC : ManagerState :=
  (start_pipeline (start_pipeline (start_pipeline emptyState "a" pipeA).1 "b" pipeB).1
    "c" pipeC).1

/-- **C5.** `terminate_all` iterates over a snapshot of the registered
names, terminating each sequentially.  First part: when every registered
entry's terminate path is clean, no error is returned, the registry is
empty afterwards, and each registered pipeline's `stop()` is observed
exactly once more than before the call.  Second part: the first failure
aborts the remaining sequence — only the failing entry's `stop()` is
appended to the trace, nothing of the later entries — and propagates to
the caller. -/
theorem terminate_all_spec :
    (∀ s : ManagerState,
      (∀ e ∈ s.pipeline_registry, e.2.pipeline.name = e.1) →
      (dictKeys s.pipeline_registry).Nodup →
      (∀ e ∈ s.pipeline_registry, cleanEntry e) →
      (terminate_all s).2 = none ∧
      (terminate_all s).1.pipeline_registry = [] ∧
      ∀ e ∈ s.pipeline_registry,
        stopCallsFor (terminate_all s).1.trace e.1 = stopCallsFor s.trace e.1 + 1) ∧
    (∀ (s : ManagerState) (k : String) (sp : PipelineSpec)
        (rest : List (String × PipelineSpec)),
      s.pipeline_registry = (k, sp) :: rest →
      sp.pipeline.stopRaises = true →
      terminate_all s =
        ({ s with trace := s.trace ++ [Effect.stopCall sp.pipeline] },
         some (PipelineError.terminationFailed k))) := by
  constructor
  · intro s hwf hnd hc
    have hta : terminate_all s =
        (⟨[], s.nextTid, s.trace ++ shutdownTrace s.pipeline_registry⟩, none) :=
      terminate_all_go_clean s.pipeline_registry s.nextTid s.trace hc
    rw [hta]
    refine ⟨rfl, rfl, ?_⟩
    intro e he
    show stopCallsFor (s.trace ++ shutdownTrace s.pipeline_registry) e.1 = _
    rw [stopCallsFor_append,
      stopCallsFor_shutdownTrace_once s.pipeline_registry hwf hnd e he]
  · intro s k sp rest hreg hstop
    have hlk : dictLookup s.pipeline_registry k = some sp := by
      rw [hreg]
      simp [dictLookup]
    have hterm := terminate_pipeline_stop_raises s k sp hlk hstop
    rw [terminate_all, hreg,
      show dictKeys ((k, sp) :: rest) = k :: dictKeys rest from rfl]
    simp only [terminate_all_go]
    rw [hterm, hreg]

/-- Witness for C5: after starting "a", "b", "c", `terminate_all` empties
the registry and each `stop()` is observed exactly once; on the
stop-failing pipeline "d" the first failure propagates with only that one
`stop()` attempted. -/
theorem terminate_all_spec_witness :
    (terminate_all stateABC).2 = none ∧
    (terminate_all stateABC).1.pipeline_registry = [] ∧
    stopCallsFor (terminate_all stateABC).1.trace "a" = 1 ∧
    stopCallsFor (terminate_all stateABC).1.trace "b" = 1 ∧
    stopCallsFor (terminate_all stateABC).1.trace "c" = 1 ∧
    terminate_all stateD =
      (ManagerState.mk [("d", ⟨"d", stopFailPipe, 0⟩)] 1 [Effect.stopCall stopFailPipe],
       some (PipelineError.terminationFailed "d")) := by
  have h := terminate_all_spec.1 stateABC (by decide) (by decide) (by decide)
  have ha := h.2.2 ("a", ⟨"a", pipeA, 0⟩) (by decide)
  have hb := h.2.2 ("b", ⟨"b", pipeB, 1⟩) (by decide)
  have hcc := h.2.2 ("c", ⟨"c", pipeC, 2⟩) (by decide)
  have habort := terminate_all_spec.2 stateD "d" ⟨"d", stopFailPipe, 0⟩ [] (by decide)
    (by decide)
  have h0a : stopCallsFor stateABC.trace "a" = 0 := by decide
  have h0b : stopCallsFor stateABC.trace "b" = 0 := by decide
  have h0c : stopCallsFor stateABC.trace "c" = 0 := by decide
  exact ⟨h.1, h.2.1, by simpa [h0a] using ha, by simpa [h0b] using hb,
    by simpa [h0c] using hcc, habort⟩
